import Mathlib

/-
Verification of the streaming-response adapter in
`src/agentscope/models/response.py` (class `ModelResponse`).

The Python code is shallowly embedded: the underlying chunk generator is a
`List StreamItem` held in the `_stream` field (the suffix not yet pulled);
iterating the wrapper generator to completion is modelled by the function
`streamGeneratorWrapper`, which returns either a Python exception
(`PyError`) or the full trace of yielded `(is_final, text)` pairs, each
paired with the envelope state at the moment of the yield, together with
the final envelope state.  `json.loads` is an external stdlib collaborator
and is modelled by an arbitrary parameter `parse : String → Option J`
(`none` = `json.JSONDecodeError`).  The opaque pass-through fields
`embedding`, `raw`, `parsed` keep type parameters `E`, `R`, `P`.
-/

namespace AgentScope

/-- Python exceptions that can escape the decoder: the reuse-guard
`RuntimeError`, `json.JSONDecodeError` from `json.loads`, and
`AttributeError` from attribute access on `None`. -/
inductive PyError where
  | runtimeError
  | jsonDecodeError
  | attributeError
deriving DecidableEq

/-- `FunctonChunk` dataclass (response.py lines 11-14): partial function
name / arguments carried by a tool-call fragment. -/
structure FunctonChunk where
  name : String := ""
  arguments : String := ""
deriving DecidableEq

/-- `ToolCallChunk` dataclass (response.py lines 17-22): a partial tool
invocation keyed by `index`. -/
structure ToolCallChunk where
  index : Int
  id : String := ""
  type : String := ""
  function : Option FunctonChunk := none
deriving DecidableEq

/-- `StreamChunk` dataclass (response.py lines 25-28). -/
structure StreamChunk where
  text : String := ""
  tool_calls : Option (List ToolCallChunk) := none
deriving DecidableEq

/-- One item yielded by the upstream generator, of Python type
`str | StreamChunk` (response.py line 45).  A bare `str` has neither a
`text` nor a `tool_calls` attribute; a `StreamChunk` has both. -/
inductive StreamItem where
  | plain (s : String)
  | structured (c : StreamChunk)
deriving DecidableEq

/-- Modelled from the spec: `ToolUseBlock` (imported from
`agentscope.message`, not included under `src/`) is an opaque record; the
construction site in response.py lines 145-150 passes `type`, `id`,
`name`, `input` (the JSON-parsed arguments, here of type `J`). -/
structure ToolUseBlock (J : Type) where
  type : String
  id : String
  name : String
  input : J
deriving DecidableEq

/-- State of a `ModelResponse` object (response.py lines 31-76).  The
`_stream` field holds the not-yet-pulled suffix of the upstream generator
(`none` models Python `None`; an exhausted generator is `some []`). -/
structure ModelResponse (E R P J : Type) where
  _text : Option String
  embedding : Option E
  image_urls : Option (List String)
  raw : Option R
  parsed : Option P
  _stream : Option (List StreamItem)
  tool_calls : Option (List (ToolUseBlock J))
  tool_call_chunk_list : Option (List ToolCallChunk)
  _is_stream_exhausted : Bool
deriving DecidableEq

variable {E R P J : Type}

/-- Python truthiness test for an `Optional[list]`: falsy iff `None` or
empty. -/
def pyFalsyList {α : Type} : Option (List α) → Bool
  | none => true
  | some l => l.isEmpty

/-- `ModelResponse.__init__` (response.py lines 38-76).  A generator
object is always truthy, so `if stream and not tool_calls` tests
`stream is not None` and `tool_calls` being `None` or empty. -/
def ModelResponse.init (text : Option String) (embedding : Option E)
    (image_urls : Option (List String)) (raw : Option R) (parsed : Option P)
    (stream : Option (List StreamItem))
    (tool_calls : Option (List (ToolUseBlock J))) : ModelResponse E R P J :=
  { _text := text
    embedding := embedding
    image_urls := image_urls
    raw := raw
    parsed := parsed
    _stream := stream
    tool_calls := if stream.isSome && pyFalsyList tool_calls then some []
                  else tool_calls
    tool_call_chunk_list := none
    _is_stream_exhausted := false }

/-- `ModelResponse.is_stream_exhausted` property (response.py lines
101-104): a pure query of the private flag. -/
def ModelResponse.is_stream_exhausted (r : ModelResponse E R P J) : Bool :=
  r._is_stream_exhausted

/-- The `hasattr(item, "text")` dance (response.py lines 125-128 /
135-138): a `StreamChunk` contributes its `text` field, a bare `str`
contributes itself. -/
def StreamItem.textValue : StreamItem → String
  | .plain s => s
  | .structured c => c.text

/-- The `hasattr(item, "tool_calls")` assignment (response.py lines
123-124 / 133-134): a `StreamChunk` overwrites `tool_call_chunk_list`
with its own `tool_calls` field (possibly `None`); a bare `str` leaves it
unchanged. -/
def processToolCalls (item : StreamItem) (r : ModelResponse E R P J) :
    ModelResponse E R P J :=
  match item with
  | .plain _ => r
  | .structured c => { r with tool_call_chunk_list := c.tool_calls }

/-- The `ToolUseBlock` construction loop body (response.py lines
143-151): keyword arguments are evaluated left to right, so
`tool_call_chunk.function.name` (an `AttributeError` when `function` is
`None`) is reached before `json.loads(...arguments)` (a
`JSONDecodeError` when the accumulated string is not valid JSON). -/
def finalizeBlocks (parse : String → Option J) :
    List ToolCallChunk → Except PyError (List (ToolUseBlock J))
  | [] => .ok []
  | tc :: rest =>
    match tc.function with
    | none => .error .attributeError
    | some f =>
      match parse f.arguments with
      | none => .error .jsonDecodeError
      | some v =>
        match finalizeBlocks parse rest with
        | .error e => .error e
        | .ok bs =>
          .ok ({ type := "tool_use", id := tc.id, name := f.name,
                 input := v } :: bs)

/-- The finalization step after the `for` loop (response.py lines
141-151): `if self.tool_call_chunk_list:` is a truthiness test, then the
materialized blocks are appended to `self.tool_calls` (an
`AttributeError` if that field were `None`). -/
def finalize (parse : String → Option J) (r : ModelResponse E R P J) :
    Except PyError (ModelResponse E R P J) :=
  if pyFalsyList r.tool_call_chunk_list then .ok r
  else
    match finalizeBlocks parse (r.tool_call_chunk_list.getD []) with
    | .error e => .error e
    | .ok bs =>
      match r.tool_calls with
      | none => .error .attributeError
      | some l => .ok { r with tool_calls := some (l ++ bs) }

/-- The `for item in self._stream` loop plus the epilogue of
`_stream_generator_wrapper` (response.py lines 130-153), after the first
item has already been pulled and processed and `last_text` holds its
text.  The list argument is the not-yet-pulled suffix of the upstream
generator.  On each loop iteration the `for` statement pulls the next
item first (advancing `_stream`), then the body sets `self._text` to the
previous delta, yields `(False, previous-delta)`, and only then merges
the pulled item.  When the pull raises `StopIteration` the loop exits,
`self._text` is set to the last delta, the accumulated tool-call chunks
are finalized, and `(True, last_delta)` is yielded.  The returned trace
pairs every yielded item with the envelope state at that yield. -/
def streamLoop (parse : String → Option J) :
    String → List StreamItem → ModelResponse E R P J →
      Except PyError
        (List ((Bool × String) × ModelResponse E R P J) ×
          ModelResponse E R P J)
  | lastText, [], r =>
    match finalize parse { r with _text := some lastText } with
    | .error e => .error e
    | .ok r2 => .ok ([((true, lastText), r2)], r2)
  | lastText, item :: rest, r =>
    match streamLoop parse item.textValue rest
        (processToolCalls item
          { r with _stream := some rest, _text := some lastText }) with
    | .error e => .error e
    | .ok (tr, rf) =>
      .ok (((false, lastText),
            { r with _stream := some rest, _text := some lastText }) :: tr,
        rf)

/-- `ModelResponse._stream_generator_wrapper` (response.py lines
106-157), run to completion.  The reuse guard raises `RuntimeError` when
the exhaustion flag is set; the initial `next(self._stream)` raising
`StopIteration` is caught by the surrounding `except StopIteration` and
produces zero yields.  (The `self.stream` property, lines 93-99, returns
`None` when `_stream is None` and otherwise a fresh wrapper generator;
iterating that view to completion is exactly this function.) -/
def streamGeneratorWrapper (parse : String → Option J)
    (r : ModelResponse E R P J) :
    Except PyError
      (List ((Bool × String) × ModelResponse E R P J) ×
        ModelResponse E R P J) :=
  if r._is_stream_exhausted then .error .runtimeError
  else
    match r._stream with
    | none => .ok ([], r)
    | some [] => .ok ([], r)
    | some (item :: rest) =>
      streamLoop parse item.textValue rest
        (processToolCalls item { r with _stream := some rest })

/-- `ModelResponse.text` property getter (response.py lines 78-86): if
`_text` is set it is returned unchanged; otherwise, if a stream exists,
the wrapper is drained by `for _, chunk in self.stream`, whose body
re-assigns `self._text` to each yielded delta (the same value the
wrapper itself just stored), and the resulting `_text` is returned. -/
def ModelResponse.text (parse : String → Option J)
    (r : ModelResponse E R P J) :
    Except PyError (Option String × ModelResponse E R P J) :=
  match r._text with
  | some t => .ok (some t, r)
  | none =>
    match r._stream with
    | none => .ok (none, r)
    | some _ =>
      match streamGeneratorWrapper parse r with
      | .error e => .error e
      | .ok (_, r1) => .ok (r1._text, r1)

/-- Rendering of the `raw` field inside `__str__` (response.py lines
160-163): embedded directly when `_is_json_serializable(raw)` holds,
otherwise coerced with `str(...)` first. -/
inductive RawRepr (R : Type) where
  | jsonVal (v : Option R)
  | strVal (s : String)
deriving DecidableEq

/-- The field dictionary serialized by `__str__` (response.py lines
165-171), with its stable field order. -/
structure SerializedFields (E R P : Type) where
  text : Option String
  embedding : Option E
  image_urls : Option (List String)
  parsed : Option P
  raw : RawRepr R
deriving DecidableEq

/-- `ModelResponse.__str__` (response.py lines 159-172).
`_is_json_serializable` lives in `agentscope.utils.common` (outside the
decoder core) and `str(raw)` is the Python display form; both are
parameters.  Building the dictionary reads the `text` property, which
drains an untouched stream as a side effect; the remaining fields are
read from the post-drain state.  The `json.dumps` call is modelled by
returning the field record itself. -/
def ModelResponse.strRepr (isJsonSerializable : Option R → Bool)
    (pyStr : Option R → String) (parse : String → Option J)
    (r : ModelResponse E R P J) :
    Except PyError (SerializedFields E R P × ModelResponse E R P J) :=
  match r.text parse with
  | .error e => .error e
  | .ok (t, r1) =>
    .ok ({ text := t, embedding := r1.embedding,
           image_urls := r1.image_urls, parsed := r1.parsed,
           raw := if isJsonSerializable r.raw then RawRepr.jsonVal r.raw
                  else RawRepr.strVal (pyStr r.raw) }, r1)

/-- The `(is_final, delta)` pairs the spec predicts for deltas
`d1 .. dn`: all marked non-final except the last. -/
def expectedPairs : List String → List (Bool × String)
  | [] => []
  | [d] => [(true, d)]
  | d :: d2 :: rest => (false, d) :: expectedPairs (d2 :: rest)

/-- The value `last_text` holds after the remaining items have been
consumed, starting from previous delta `d`. -/
def lastTextOf (d : String) : List StreamItem → String
  | [] => d
  | item :: rest => lastTextOf item.textValue rest

/-- The value `tool_call_chunk_list` holds after the remaining items
have been consumed, starting from accumulator `a`: each structured chunk
overwrites it with its own `tool_calls` field. -/
def accToolChunks (a : Option (List ToolCallChunk)) :
    List StreamItem → Option (List ToolCallChunk)
  | [] => a
  | .plain _ :: rest => accToolChunks a rest
  | .structured c :: rest => accToolChunks c.tool_calls rest

/-- The envelope state at the point just before finalization, for a loop
entered with previous delta `d`, remaining items `items` and envelope
`r` (whose `_stream` is `some items`). -/
def preFinal (r : ModelResponse E R P J) (d : String)
    (items : List StreamItem) : ModelResponse E R P J :=
  { r with _stream := some []
           _text := some (lastTextOf d items)
           tool_call_chunk_list :=
             accToolChunks r.tool_call_chunk_list items }

/-- The last element of `d :: ds`. -/
def lastDelta (d : String) : List String → String
  | [] => d
  | s :: rest => lastDelta s rest

/-- A trivial stand-in for `json.loads` that accepts every string. -/
def uparse : String → Option Unit := fun _ => some ()

/-- A stand-in for `json.loads` that returns the raw string itself. -/
def sparse : String → Option String := fun s => some s

/-- A stand-in for `json.loads` that accepts only the string "good". -/
def bparse : String → Option Unit :=
  fun s => if s = "good" then some () else none

/-- A response carrying a one-chunk stream with text delta "a". -/
def resp1 : ModelResponse Unit Unit Unit Unit :=
  ModelResponse.init none none none none none (some [.plain "a"]) none

/-- The state of `resp1` after its stream has been drained. -/
def resp1d : ModelResponse Unit Unit Unit Unit :=
  { resp1 with _text := some "a", _stream := some [] }

/-- A response carrying a stream with text deltas "Hel" then "lo". -/
def resp2 : ModelResponse Unit Unit Unit Unit :=
  ModelResponse.init none none none none none
    (some [.plain "Hel", .plain "lo"]) none

/-- The state of `resp2` at its first (non-final) yield: because
emission runs one chunk behind consumption, both chunks have already
been pulled. -/
def resp2m : ModelResponse Unit Unit Unit Unit :=
  { resp2 with _text := some "Hel", _stream := some [] }

/-- The state of `resp2` after its stream has been drained. -/
def resp2d : ModelResponse Unit Unit Unit Unit :=
  { resp2 with _text := some "lo", _stream := some [] }

/-- The full yield trace of `resp2`. -/
def resp2tr : List ((Bool × String) × ModelResponse Unit Unit Unit Unit) :=
  [((false, "Hel"), resp2m), ((true, "lo"), resp2d)]

/-- A first tool-call fragment for index 0, carrying id, name and the
first half of the arguments. -/
def frag3a : ToolCallChunk :=
  { index := 0, id := "id1", type := "function",
    function := some { name := "f", arguments := "alpha" } }

/-- A second tool-call fragment for the same index 0, carrying only the
second half of the arguments. -/
def frag3b : ToolCallChunk :=
  { index := 0, id := "", type := "",
    function := some { name := "", arguments := "beta" } }

/-- A chunk carrying only the fragment `frag3a`. -/
def chunk3a : StreamChunk := { text := "", tool_calls := some [frag3a] }

/-- A chunk carrying only the fragment `frag3b`. -/
def chunk3b : StreamChunk := { text := "", tool_calls := some [frag3b] }

/-- A response whose stream carries two fragments for the same index in
two successive chunks. -/
def resp3 : ModelResponse Unit Unit Unit String :=
  ModelResponse.init none none none none none
    (some [.structured chunk3a, .structured chunk3b]) none

/-- The tool-use block the code actually materializes from `resp3`:
only the last chunk's fragment survives (arguments "beta", empty id and
name), with no merging. -/
def blk3 : ToolUseBlock String :=
  { type := "tool_use", id := "", name := "", input := "beta" }

/-- The state of `resp3` at its first yield: both chunks pulled, the
accumulator holding only the first chunk's fragment list. -/
def resp3m : ModelResponse Unit Unit Unit String :=
  { resp3 with _stream := some [], _text := some "",
               tool_call_chunk_list := some [frag3a] }

/-- The state of `resp3` after drainage: the accumulator was overwritten
by the second chunk's fragment list and only that list was finalized. -/
def resp3d : ModelResponse Unit Unit Unit String :=
  { resp3m with tool_call_chunk_list := some [frag3b],
                tool_calls := some [blk3] }

/-- A fragment whose accumulated arguments string "bad" is not valid
JSON for the parser `bparse`. -/
def frag6 : ToolCallChunk :=
  { index := 0, id := "i", type := "f",
    function := some { name := "n", arguments := "bad" } }

/-- A chunk carrying the malformed fragment `frag6`. -/
def chunk6 : StreamChunk := { text := "t", tool_calls := some [frag6] }

/-- A response whose stream carries the malformed fragment. -/
def resp6 : ModelResponse Unit Unit Unit Unit :=
  ModelResponse.init none none none none none
    (some [.structured chunk6]) none

/-- The serialized fields `__str__` produces for `resp1` when `raw` is
reported serializable. -/
def flds9 : SerializedFields Unit Unit Unit :=
  { text := some "a", embedding := none, image_urls := none,
    parsed := none, raw := .jsonVal none }

@[simp] theorem processToolCalls_stream (item : StreamItem)
    (r : ModelResponse E R P J) :
    (processToolCalls item r)._stream = r._stream := by
  cases item <;> rfl

@[simp] theorem processToolCalls_text (item : StreamItem)
    (r : ModelResponse E R P J) :
    (processToolCalls item r)._text = r._text := by
  cases item <;> rfl

@[simp] theorem processToolCalls_flag (item : StreamItem)
    (r : ModelResponse E R P J) :
    (processToolCalls item r)._is_stream_exhausted =
      r._is_stream_exhausted := by
  cases item <;> rfl

/-- Finalization only ever touches the `tool_calls` field. -/
theorem finalize_ok_fields {parse : String → Option J}
    {r r' : ModelResponse E R P J} (h : finalize parse r = .ok r') :
    r'._text = r._text ∧ r'._stream = r._stream ∧
      r'._is_stream_exhausted = r._is_stream_exhausted ∧
      r'.tool_call_chunk_list = r.tool_call_chunk_list := by
  unfold finalize at h
  split at h
  · cases h
    exact ⟨rfl, rfl, rfl, rfl⟩
  · cases hb : finalizeBlocks parse (r.tool_call_chunk_list.getD []) <;>
      rw [hb] at h
    · cases h
    · cases htc : r.tool_calls <;> rw [htc] at h
      · cases h
      · cases h
        exact ⟨rfl, rfl, rfl, rfl⟩

/-- A falsy accumulator makes finalization a no-op. -/
theorem finalize_falsy {parse : String → Option J}
    {r : ModelResponse E R P J}
    (h : pyFalsyList r.tool_call_chunk_list = true) :
    finalize parse r = .ok r := by
  unfold finalize
  simp [h]

theorem preFinal_nil {r : ModelResponse E R P J} {d : String}
    (hs : r._stream = some []) :
    preFinal r d [] = { r with _text := some d } := by
  cases r
  simp only [preFinal, lastTextOf, accToolChunks] at *
  simp_all

theorem preFinal_cons (r : ModelResponse E R P J) (d : String)
    (item : StreamItem) (rest : List StreamItem) :
    preFinal r d (item :: rest) =
      preFinal
        (processToolCalls item { r with _stream := some rest,
                                        _text := some d })
        item.textValue rest := by
  cases item <;>
    simp [preFinal, processToolCalls, lastTextOf, accToolChunks]

/-- A successful run of the loop ends in exactly the state that
finalization produces from the pre-final state. -/
theorem streamLoop_ok_finalize {parse : String → Option J} :
    ∀ {d : String} {items : List StreamItem}
      {r rf : ModelResponse E R P J}
      {tr : List ((Bool × String) × ModelResponse E R P J)},
      r._stream = some items →
      streamLoop parse d items r = .ok (tr, rf) →
      finalize parse (preFinal r d items) = .ok rf := by
  intro d items
  induction items generalizing d with
  | nil =>
    intro r rf tr hs h
    rw [preFinal_nil hs]
    unfold streamLoop at h
    split at h
    · cases h
    · cases h
      assumption
  | cons item rest ih =>
    intro r rf tr hs h
    rw [preFinal_cons]
    unfold streamLoop at h
    split at h
    · cases h
    · rename_i tr' rf' heq
      cases h
      exact ih (by simp) heq

/-- Conversely, if finalization of the pre-final state succeeds, the
loop succeeds and ends in that state. -/
theorem streamLoop_of_finalize_ok {parse : String → Option J} :
    ∀ {d : String} {items : List StreamItem}
      {r rf : ModelResponse E R P J},
      r._stream = some items →
      finalize parse (preFinal r d items) = .ok rf →
      ∃ tr, streamLoop parse d items r = .ok (tr, rf) := by
  intro d items
  induction items generalizing d with
  | nil =>
    intro r rf hs h
    rw [preFinal_nil hs] at h
    exact ⟨[((true, d), rf)], by unfold streamLoop; rw [h]⟩
  | cons item rest ih =>
    intro r rf hs h
    rw [preFinal_cons] at h
    obtain ⟨tr', hrec⟩ := ih (by simp) h
    exact ⟨((false, d),
            { r with _stream := some rest, _text := some d }) :: tr',
      by unfold streamLoop; rw [hrec]⟩

/-- The loop raises exactly the error that finalization of the
pre-final state raises. -/
theorem streamLoop_error_iff {parse : String → Option J} :
    ∀ {d : String} {items : List StreamItem}
      {r : ModelResponse E R P J} {e : PyError},
      r._stream = some items →
      (streamLoop parse d items r = .error e ↔
        finalize parse (preFinal r d items) = .error e) := by
  intro d items
  induction items generalizing d with
  | nil =>
    intro r e hs
    rw [preFinal_nil hs]
    unfold streamLoop
    split
    · rename_i e' heq
      simp [heq]
    · rename_i r2 heq
      simp [heq]
  | cons item rest ih =>
    intro r e hs
    rw [preFinal_cons, ← ih (by simp)]
    conv_lhs => rw [streamLoop]
    split
    · rename_i e' heq
      simp [heq]
    · rename_i tr' rf' heq
      simp [heq]

/-- The yielded pairs of a successful loop run are exactly the deltas in
arrival order, all marked non-final except the last. -/
theorem streamLoop_pairs {parse : String → Option J} :
    ∀ {d : String} {items : List StreamItem}
      {r rf : ModelResponse E R P J}
      {tr : List ((Bool × String) × ModelResponse E R P J)},
      streamLoop parse d items r = .ok (tr, rf) →
      tr.map Prod.fst =
        expectedPairs (d :: items.map StreamItem.textValue) := by
  intro d items
  induction items generalizing d with
  | nil =>
    intro r rf tr h
    unfold streamLoop at h
    split at h
    · cases h
    · cases h
      rfl
  | cons item rest ih =>
    intro r rf tr h
    unfold streamLoop at h
    split at h
    · cases h
    · rename_i tr' rf' heq
      cases h
      simpa [expectedPairs] using ih heq

/-- At each yield of a successful loop run, the envelope's `_text` field
holds exactly the delta being yielded. -/
theorem streamLoop_text_at {parse : String → Option J} :
    ∀ {d : String} {items : List StreamItem}
      {r rf : ModelResponse E R P J}
      {tr : List ((Bool × String) × ModelResponse E R P J)},
      streamLoop parse d items r = .ok (tr, rf) →
      ∀ p ∈ tr, p.2._text = some p.1.2 := by
  intro d items
  induction items generalizing d with
  | nil =>
    intro r rf tr h p hp
    unfold streamLoop at h
    split at h
    · cases h
    · rename_i r2 heq
      cases h
      rw [List.mem_singleton.mp hp]
      exact (finalize_ok_fields heq).1
  | cons item rest ih =>
    intro r rf tr h p hp
    unfold streamLoop at h
    split at h
    · cases h
    · rename_i tr' rf' heq
      cases h
      rcases List.mem_cons.mp hp with hp1 | hp2
      · rw [hp1]
      · exact ih heq p hp2

/-- At the `j`-th yield of a successful loop run, consumption has
already advanced one chunk past the yielded delta: the not-yet-pulled
suffix is `items.drop (j + 1)`. -/
theorem streamLoop_drop {parse : String → Option J} :
    ∀ {d : String} {items : List StreamItem}
      {r rf : ModelResponse E R P J}
      {tr : List ((Bool × String) × ModelResponse E R P J)},
      r._stream = some items →
      streamLoop parse d items r = .ok (tr, rf) →
      ∀ j (hj : j < tr.length),
        (tr.get ⟨j, hj⟩).2._stream = some (items.drop (j + 1)) := by
  intro d items
  induction items generalizing d with
  | nil =>
    intro r rf tr hs h j hj
    unfold streamLoop at h
    split at h
    · cases h
    · rename_i r2 heq
      cases h
      have hj0 : j = 0 := Nat.lt_one_iff.mp hj
      subst hj0
      have hf := (finalize_ok_fields heq).2.1
      simp only [List.get] at *
      rw [hf]
      simpa using hs
  | cons item rest ih =>
    intro r rf tr hs h j hj
    unfold streamLoop at h
    split at h
    · cases h
    · rename_i tr' rf' heq
      cases h
      cases j with
      | zero => rfl
      | succ j =>
        have hj' : j < tr'.length := Nat.succ_lt_succ_iff.mp hj
        simpa using ih (by simp) heq j hj'

/-- A successful wrapper run implies the reuse guard was not tripped. -/
theorem wrapper_ok_flag {parse : String → Option J}
    {r rf : ModelResponse E R P J}
    {tr : List ((Bool × String) × ModelResponse E R P J)}
    (h : streamGeneratorWrapper parse r = .ok (tr, rf)) :
    r._is_stream_exhausted = false := by
  cases hb : r._is_stream_exhausted
  · rfl
  · unfold streamGeneratorWrapper at h
    rw [if_pos hb] at h
    cases h

/-- Unfolding the wrapper when the guard is down and the source is
already exhausted. -/
theorem wrapper_nil (parse : String → Option J)
    {r : ModelResponse E R P J}
    (hflag : r._is_stream_exhausted = false)
    (hs : r._stream = some []) :
    streamGeneratorWrapper parse r = .ok ([], r) := by
  unfold streamGeneratorWrapper
  rw [if_neg (by simp [hflag]), hs]

/-- Unfolding the wrapper when the guard is down and the source still
has a first item. -/
theorem wrapper_cons (parse : String → Option J)
    {r : ModelResponse E R P J} {item : StreamItem}
    {rest : List StreamItem}
    (hflag : r._is_stream_exhausted = false)
    (hs : r._stream = some (item :: rest)) :
    streamGeneratorWrapper parse r =
      streamLoop parse item.textValue rest
        (processToolCalls item { r with _stream := some rest }) := by
  unfold streamGeneratorWrapper
  rw [if_neg (by simp [hflag]), hs]

/-- A successful wrapper run leaves the source exhausted and the reuse
flag still down. -/
theorem wrapper_ok_post {parse : String → Option J}
    {r rf : ModelResponse E R P J} {items : List StreamItem}
    {tr : List ((Bool × String) × ModelResponse E R P J)}
    (hs : r._stream = some items)
    (h : streamGeneratorWrapper parse r = .ok (tr, rf)) :
    rf._stream = some [] ∧ rf._is_stream_exhausted = false := by
  have hflag := wrapper_ok_flag h
  cases items with
  | nil =>
    rw [wrapper_nil parse hflag hs] at h
    cases h
    exact ⟨hs, hflag⟩
  | cons item rest =>
    rw [wrapper_cons parse hflag hs] at h
    have hfin := streamLoop_ok_finalize (by simp) h
    have hf := finalize_ok_fields hfin
    refine ⟨by rw [hf.2.1]; rfl, ?_⟩
    rw [hf.2.2.1]
    simpa [preFinal] using hflag

/-- Reading the `text` property on an untouched streaming response
returns the post-drain `_text` and leaves the envelope in the post-drain
state. -/
theorem text_of_drain {parse : String → Option J}
    {r rf : ModelResponse E R P J} {items : List StreamItem}
    {tr : List ((Bool × String) × ModelResponse E R P J)}
    (ht : r._text = none) (hs : r._stream = some items)
    (hw : streamGeneratorWrapper parse r = .ok (tr, rf)) :
    ModelResponse.text parse r = .ok (rf._text, rf) := by
  unfold ModelResponse.text
  rw [ht, hs, hw]

/-- Reading the `text` property on an untouched streaming response
propagates the drain's error. -/
theorem text_error {parse : String → Option J}
    {r : ModelResponse E R P J} {items : List StreamItem} {er : PyError}
    (ht : r._text = none) (hs : r._stream = some items)
    (hw : streamGeneratorWrapper parse r = .error er) :
    ModelResponse.text parse r = .error er := by
  unfold ModelResponse.text
  rw [ht, hs, hw]

/-- Reading the `text` property on a drained response whose reuse flag
is (still) down returns `_text` unchanged without consuming anything. -/
theorem text_settled {parse : String → Option J}
    {r : ModelResponse E R P J}
    (h1 : r._stream = some []) (h2 : r._is_stream_exhausted = false) :
    ModelResponse.text parse r = .ok (r._text, r) := by
  unfold ModelResponse.text
  cases ht : r._text with
  | some t => rfl
  | none =>
    rw [h1, wrapper_nil parse h2 h1]
    simp [ht]

/-- Overwriting semantics of the accumulator over an appended item
list. -/
theorem accToolChunks_append (a : Option (List ToolCallChunk)) :
    ∀ (xs ys : List StreamItem),
      accToolChunks a (xs ++ ys) = accToolChunks (accToolChunks a xs) ys := by
  intro xs
  induction xs generalizing a with
  | nil => intro ys; rfl
  | cons x rest ih =>
    intro ys
    cases x with
    | plain s => exact ih a ys
    | structured c => exact ih c.tool_calls ys

/-- Bare-text items never touch the accumulator. -/
theorem accToolChunks_plain (a : Option (List ToolCallChunk)) :
    ∀ ds : List String, accToolChunks a (ds.map StreamItem.plain) = a := by
  intro ds
  induction ds with
  | nil => rfl
  | cons d rest ih => exact ih

/-- Folding the first item into the accumulator commutes with
`processToolCalls`. -/
theorem accToolChunks_process (item : StreamItem)
    (r : ModelResponse E R P J) (rest : List StreamItem) :
    accToolChunks (processToolCalls item r).tool_call_chunk_list rest =
      accToolChunks r.tool_call_chunk_list (item :: rest) := by
  cases item <;> rfl

/-- The last delta of a stream of bare-text items. -/
theorem lastTextOf_plain :
    ∀ (ds : List String) (d : String),
      lastTextOf d (ds.map StreamItem.plain) = lastDelta d ds := by
  intro ds
  induction ds with
  | nil => intro d; rfl
  | cons s rest ih => intro d; exact ih s

/-- Finalization with a truthy accumulator whose blocks all materialize
appends the blocks to the existing tool-call list. -/
theorem finalize_some {parse : String → Option J}
    {r : ModelResponse E R P J} {L : List ToolCallChunk}
    {bs : List (ToolUseBlock J)} {tl : List (ToolUseBlock J)}
    (h1 : r.tool_call_chunk_list = some L) (h2 : L ≠ [])
    (h3 : r.tool_calls = some tl)
    (h4 : finalizeBlocks parse L = .ok bs) :
    finalize parse r = .ok { r with tool_calls := some (tl ++ bs) } := by
  unfold finalize
  rw [h1, h3]
  cases L with
  | nil => exact absurd rfl h2
  | cons tc rest =>
    rw [if_neg (by simp [pyFalsyList])]
    simp only [Option.getD_some]
    rw [h4]

/-- Finalization with a truthy accumulator propagates a materialization
error. -/
theorem finalize_error {parse : String → Option J}
    {r : ModelResponse E R P J} {L : List ToolCallChunk} {er : PyError}
    (h1 : r.tool_call_chunk_list = some L) (h2 : L ≠ [])
    (h3 : finalizeBlocks parse L = .error er) :
    finalize parse r = .error er := by
  unfold finalize
  rw [h1]
  have hfalse : pyFalsyList (some L) = false := by
    cases L with
    | nil => exact absurd rfl h2
    | cons a as => rfl
  rw [if_neg (by simp [hfalse])]
  simp [h3]

/-- If every accumulated entry has a `function` record but some entry's
arguments string fails to parse, materialization raises the decode
error. -/
theorem finalizeBlocks_bad {parse : String → Option J} :
    ∀ {L : List ToolCallChunk},
      (∀ tc ∈ L, tc.function.isSome) →
      (∃ tc ∈ L, ∃ f, tc.function = some f ∧ parse f.arguments = none) →
      finalizeBlocks parse L = .error .jsonDecodeError := by
  intro L
  induction L with
  | nil =>
    intro _ hbad
    obtain ⟨tc, htc, _⟩ := hbad
    cases htc
  | cons tc rest ih =>
    intro hfun hbad
    obtain ⟨f, hf⟩ :=
      Option.isSome_iff_exists.mp (hfun tc (List.mem_cons_self tc rest))
    unfold finalizeBlocks
    rw [hf]
    cases hp : parse f.arguments with
    | none => simp [hp]
    | some v =>
      have hbad' : ∃ tc' ∈ rest, ∃ f', tc'.function = some f' ∧
          parse f'.arguments = none := by
        obtain ⟨tc', htc', f', hf', hp'⟩ := hbad
        rcases List.mem_cons.mp htc' with h1 | h2
        · subst h1
          rw [hf] at hf'
          cases hf'
          rw [hp] at hp'
          cases hp'
        · exact ⟨tc', h2, f', hf', hp'⟩
      simp [hp, ih (fun x hx => hfun x (List.mem_cons_of_mem tc hx)) hbad']

/-- Draining a stream of bare-text chunks always succeeds and settles
`_text` at the last delta, leaving everything else unchanged. -/
theorem wrapper_plain (parse : String → Option J)
    (r0 : ModelResponse E R P J) (d : String) (ds : List String)
    (hflag : r0._is_stream_exhausted = false)
    (hs : r0._stream = some ((d :: ds).map StreamItem.plain))
    (htcl : r0.tool_call_chunk_list = none) :
    ∃ tr, streamGeneratorWrapper parse r0 =
      .ok (tr, { r0 with _stream := some [],
                         _text := some (lastDelta d ds) }) := by
  have hfin : finalize parse
      (preFinal (processToolCalls (StreamItem.plain d)
          { r0 with _stream := some (ds.map StreamItem.plain) })
        d (ds.map StreamItem.plain)) =
      .ok (preFinal (processToolCalls (StreamItem.plain d)
          { r0 with _stream := some (ds.map StreamItem.plain) })
        d (ds.map StreamItem.plain)) := by
    apply finalize_falsy
    show pyFalsyList
      (accToolChunks r0.tool_call_chunk_list (ds.map StreamItem.plain))
      = true
    rw [accToolChunks_plain, htcl]
    rfl
  obtain ⟨tr, hloop⟩ :=
    streamLoop_of_finalize_ok (by simp) hfin
  have hstate : preFinal (processToolCalls (StreamItem.plain d)
      { r0 with _stream := some (ds.map StreamItem.plain) })
      d (ds.map StreamItem.plain) =
      { r0 with _stream := some [], _text := some (lastDelta d ds) } := by
    cases r0
    simp only [preFinal, processToolCalls, accToolChunks_plain,
      lastTextOf_plain]
  refine ⟨tr, ?_⟩
  have hw := wrapper_cons parse hflag hs
  simp only [StreamItem.textValue] at hw
  rw [hw, hloop, hstate]

/-- A successful wrapper run over a stream whose accumulated fragment
list is `L` finalizes exactly the blocks of `L`, appended to the
existing tool-call list. -/
theorem wrapper_acc (parse : String → Option J)
    (r0 : ModelResponse E R P J) (item : StreamItem)
    (rest : List StreamItem) (L : List ToolCallChunk)
    (bs tl : List (ToolUseBlock J))
    (hflag : r0._is_stream_exhausted = false)
    (hs : r0._stream = some (item :: rest))
    (hacc : accToolChunks r0.tool_call_chunk_list (item :: rest) = some L)
    (hL : L ≠ []) (htl : r0.tool_calls = some tl)
    (hfb : finalizeBlocks parse L = .ok bs) :
    ∃ tr rf, streamGeneratorWrapper parse r0 = .ok (tr, rf) ∧
      rf.tool_call_chunk_list = some L ∧
      rf.tool_calls = some (tl ++ bs) := by
  have hacc' : (preFinal (processToolCalls item
      { r0 with _stream := some rest }) item.textValue
        rest).tool_call_chunk_list = some L := by
    show accToolChunks (processToolCalls item
      { r0 with _stream := some rest }).tool_call_chunk_list rest = some L
    rw [accToolChunks_process]
    exact hacc
  have htl' : (preFinal (processToolCalls item
      { r0 with _stream := some rest }) item.textValue
        rest).tool_calls = some tl := by
    show (processToolCalls item
      { r0 with _stream := some rest }).tool_calls = some tl
    cases item <;> exact htl
  have hfin := finalize_some hacc' hL htl' hfb
  obtain ⟨tr, hloop⟩ := streamLoop_of_finalize_ok (by simp) hfin
  exact ⟨tr, _, (wrapper_cons parse hflag hs).trans hloop, hacc', rfl⟩

/-- C1: the claim fails on the code as written.  After the one-chunk
stream of `resp1` has been iterated to completion, invoking the stream
view again returns an empty yield sequence with no error instead of
raising the RuntimeError: the `_is_stream_exhausted` flag is never set
to `true`, so the reuse guard is dead code. -/
theorem claim_C1 :
    streamGeneratorWrapper uparse resp1 =
      .ok ([((true, "a"), resp1d)], resp1d) ∧
    streamGeneratorWrapper uparse resp1d = .ok ([], resp1d) ∧
    resp1d._is_stream_exhausted = false :=
  ⟨rfl, rfl, rfl⟩

/-- C4: the claim fails on the code as written.  Draining the stream of
`resp1` to completion leaves `is_stream_exhausted` at `false` — the flag
is never flipped anywhere.  (The claim's second half, that a response
constructed without a stream reports `false`, does hold.) -/
theorem claim_C4 :
    streamGeneratorWrapper uparse resp1 =
      .ok ([((true, "a"), resp1d)], resp1d) ∧
    resp1d.is_stream_exhausted = false ∧
    (ModelResponse.init (E := Unit) (R := Unit) (P := Unit) (J := Unit)
        (some "done") none none none none none none).is_stream_exhausted
      = false :=
  ⟨rfl, rfl, rfl⟩

/-- C2 counterexample: for the spec's own example stream with deltas
"Hel" then "lo", the settled text accessor returns "lo" (the last
delta), not the concatenation "Hello". -/
theorem claim_C2_counterexample :
    ModelResponse.text uparse resp2 = .ok (some "lo", resp2d) ∧
    (some "lo" : Option String) ≠ some "Hello" :=
  ⟨rfl, by decide⟩

/-- C2 (amended): after a stream of text deltas `d :: ds` is drained via
the settled text accessor, the settled text equals the last delta
observed (the text of the final chunk), not the concatenation of all
deltas. -/
theorem claim_C2 (parse : String → Option J) (d : String)
    (ds : List String) (e : Option E) (iu : Option (List String))
    (raw : Option R) (p : Option P)
    (tc : Option (List (ToolUseBlock J))) :
    ∃ rf, ModelResponse.text parse
        (ModelResponse.init none e iu raw p
          (some ((d :: ds).map StreamItem.plain)) tc) =
      .ok (some (lastDelta d ds), rf) := by
  obtain ⟨tr, hw⟩ := wrapper_plain parse
    (ModelResponse.init none e iu raw p
      (some ((d :: ds).map StreamItem.plain)) tc) d ds (by rfl) (by rfl)
    (by rfl)
  exact ⟨_, text_of_drain rfl rfl hw⟩

/-- C3 counterexample: two fragments for the same index 0 arriving in
two successive chunks are not merged.  The first fragment's id "id1",
name "f" and arguments "alpha" are discarded; the finalized invocation
carries only the second fragment's fields — empty id, empty name and
arguments "beta" instead of the concatenation "alphabeta". -/
theorem claim_C3_counterexample :
    streamGeneratorWrapper sparse resp3 =
      .ok ([((false, ""), resp3m), ((true, ""), resp3d)], resp3d) ∧
    resp3d.tool_calls = some [blk3] ∧
    blk3.input ≠ "alpha" ++ "beta" ∧
    blk3.id ≠ frag3a.id ∧ blk3.name ≠ "f" :=
  ⟨rfl, rfl, by decide, by decide, by decide⟩

/-- C3 (amended): fragments are not merged by index.  Each chunk that
carries a `tool_calls` field overwrites the working list wholesale, so
finalization materializes exactly the fragments of the last such chunk,
each with its own arguments string taken verbatim; fragments from every
earlier chunk contribute nothing. -/
theorem claim_C3 (parse : String → Option J) (items : List StreamItem)
    (c : StreamChunk) (L : List ToolCallChunk)
    (bs : List (ToolUseBlock J)) (e : Option E)
    (iu : Option (List String)) (raw : Option R) (p : Option P)
    (hc : c.tool_calls = some L) (hL : L ≠ [])
    (hfb : finalizeBlocks parse L = .ok bs) :
    ∃ tr rf,
      streamGeneratorWrapper parse
        (ModelResponse.init none e iu raw p
          (some (items ++ [StreamItem.structured c])) none) =
        .ok (tr, rf) ∧
      rf.tool_call_chunk_list = some L ∧
      rf.tool_calls = some bs := by
  have hacc : accToolChunks none (items ++ [StreamItem.structured c])
      = some L := by
    rw [accToolChunks_append]
    show c.tool_calls = some L
    exact hc
  cases items with
  | nil =>
    obtain ⟨tr, rf, hw, h1, h2⟩ :=
      wrapper_acc parse
        (ModelResponse.init none e iu raw p
          (some ([] ++ [StreamItem.structured c])) none)
        (StreamItem.structured c) [] L bs [] (by rfl) (by rfl) hacc hL
        (by rfl) hfb
    exact ⟨tr, rf, hw, h1, by simpa using h2⟩
  | cons i t =>
    obtain ⟨tr, rf, hw, h1, h2⟩ :=
      wrapper_acc parse
        (ModelResponse.init none e iu raw p
          (some ((i :: t) ++ [StreamItem.structured c])) none)
        i (t ++ [StreamItem.structured c]) L bs [] (by rfl) (by rfl) hacc
        hL (by rfl) hfb
    exact ⟨tr, rf, hw, h1, by simpa using h2⟩

/-- C3 witness: the amended claim instantiated at the concrete
two-fragment stream of the counterexample. -/
theorem claim_C3_witness :
    ∃ tr rf,
      streamGeneratorWrapper sparse
        (ModelResponse.init (E := Unit) (R := Unit) (P := Unit)
          none none none none none
          (some ([StreamItem.structured chunk3a] ++
            [StreamItem.structured chunk3b])) none) = .ok (tr, rf) ∧
      rf.tool_call_chunk_list = some [frag3b] ∧
      rf.tool_calls = some [blk3] :=
  claim_C3 (E := Unit) (R := Unit) (P := Unit) sparse
    [StreamItem.structured chunk3a] chunk3b [frag3b] [blk3]
    none none none none rfl (by simp) rfl

/-- C8: a response over an empty stream drains with zero incremental
emissions and no error, leaving the whole envelope (in particular the
settled text) unchanged; reading the settled text accessor on such a
response returns the absent value. -/
theorem claim_C8 (parse : String → Option J) (t0 : Option String)
    (e : Option E) (iu : Option (List String)) (raw : Option R)
    (p : Option P) (tc : Option (List (ToolUseBlock J))) :
    streamGeneratorWrapper parse
        (ModelResponse.init t0 e iu raw p (some []) tc) =
      .ok ([], ModelResponse.init t0 e iu raw p (some []) tc) ∧
    (ModelResponse.init (E := E) (R := R) (P := P) (J := J)
      t0 e iu raw p (some []) tc)._text = t0 ∧
    ModelResponse.text parse
        (ModelResponse.init none e iu raw p (some []) tc) =
      .ok (none, ModelResponse.init none e iu raw p (some []) tc) :=
  ⟨rfl, rfl, rfl⟩

/-- C10: constructing with a stream and no tool calls initializes
`tool_calls` to the empty list; constructing with neither leaves it
`None`. -/
theorem claim_C10 (t0 : Option String) (e : Option E)
    (iu : Option (List String)) (raw : Option R) (p : Option P)
    (s : List StreamItem) :
    (ModelResponse.init (J := J) t0 e iu raw p (some s) none).tool_calls
      = some [] ∧
    (ModelResponse.init (J := J) t0 e iu raw p none none).tool_calls
      = none :=
  ⟨rfl, rfl⟩

/-- C5: for a stream of chunks with text deltas `d1 .. dn`, a full
iteration of the incremental view that completes without error yields
exactly the pairs `(False,d1), ..., (False,d_{n-1}), (True,dn)`; as each
pair is emitted, the envelope's settled text has been updated to the
emitted delta; and emission runs one chunk behind consumption: at the
`j`-th yield, `j + 2` chunks have already been pulled, so the remaining
source is `items.drop (j + 2)`. -/
theorem claim_C5 (parse : String → Option J)
    (r0 rf : ModelResponse E R P J) (items : List StreamItem)
    (tr : List ((Bool × String) × ModelResponse E R P J))
    (hs : r0._stream = some items)
    (hw : streamGeneratorWrapper parse r0 = .ok (tr, rf)) :
    tr.map Prod.fst = expectedPairs (items.map StreamItem.textValue) ∧
    (∀ p ∈ tr, p.2._text = some p.1.2) ∧
    ∀ j (hj : j < tr.length),
      (tr.get ⟨j, hj⟩).2._stream = some (items.drop (j + 2)) := by
  have hflag := wrapper_ok_flag hw
  cases items with
  | nil =>
    rw [wrapper_nil parse hflag hs] at hw
    cases hw
    refine ⟨rfl, ?_, ?_⟩
    · intro p hp
      cases hp
    · intro j hj
      exact absurd hj (by simp)
  | cons item rest =>
    rw [wrapper_cons parse hflag hs] at hw
    refine ⟨?_, streamLoop_text_at hw, ?_⟩
    · simpa using streamLoop_pairs hw
    · intro j hj
      simpa using streamLoop_drop (by simp) hw j hj

/-- C5 witness: the claim applied to the two-delta stream of `resp2`. -/
theorem claim_C5_witness :
    streamGeneratorWrapper uparse resp2 = .ok (resp2tr, resp2d) ∧
    resp2tr.map Prod.fst =
      expectedPairs ([StreamItem.plain "Hel",
        StreamItem.plain "lo"].map StreamItem.textValue) :=
  ⟨rfl, (claim_C5 uparse resp2 resp2d
    [StreamItem.plain "Hel", StreamItem.plain "lo"] resp2tr
    (by rfl) (by rfl)).1⟩

/-- C6: if, at finalization after the stream is exhausted, the
accumulated fragment list contains an entry whose arguments string is
not valid JSON (all entries carrying their function record), draining
the stream raises the JSON decode error to the caller instead of
silently dropping the invocation. -/
theorem claim_C6 (parse : String → Option J) (items : List StreamItem)
    (L : List ToolCallChunk) (e : Option E) (iu : Option (List String))
    (raw : Option R) (p : Option P)
    (hacc : accToolChunks none items = some L)
    (hfun : ∀ tc ∈ L, tc.function.isSome)
    (hbad : ∃ tc ∈ L, ∃ f, tc.function = some f ∧
      parse f.arguments = none) :
    streamGeneratorWrapper parse
        (ModelResponse.init none e iu raw p (some items) none) =
      .error .jsonDecodeError := by
  cases items with
  | nil => simp [accToolChunks] at hacc
  | cons item rest =>
    rw [wrapper_cons parse (by rfl) (by rfl)]
    rw [streamLoop_error_iff (by simp)]
    have hL : L ≠ [] := by
      obtain ⟨tc, htc, _⟩ := hbad
      intro hnil
      rw [hnil] at htc
      cases htc
    refine finalize_error ?_ hL (finalizeBlocks_bad hfun hbad)
    show accToolChunks (processToolCalls item
      { ModelResponse.init none e iu raw p (some (item :: rest)) none with
        _stream := some rest }).tool_call_chunk_list rest = some L
    rw [accToolChunks_process]
    exact hacc

/-- C6 witness: the claim applied to a one-chunk stream whose fragment
carries the unparsable arguments string "bad". -/
theorem claim_C6_witness :
    streamGeneratorWrapper bparse resp6 = .error .jsonDecodeError :=
  claim_C6 (E := Unit) (R := Unit) (P := Unit) bparse
    [StreamItem.structured chunk6] [frag6] none none none none
    (by rfl) (by decide)
    ⟨frag6, by simp, { name := "n", arguments := "bad" }, rfl, by decide⟩

/-- C7: once a stream-carrying response has been drained to completion,
reading the settled text accessor twice returns the identical value both
times (the post-drain `_text`), and neither read changes the envelope —
in particular the second read performs no pull on the underlying chunk
sequence. -/
theorem claim_C7 (parse : String → Option J)
    (r0 rf r2 r3 : ModelResponse E R P J) (items : List StreamItem)
    (tr : List ((Bool × String) × ModelResponse E R P J))
    (t1 t2 : Option String)
    (hs : r0._stream = some items)
    (hw : streamGeneratorWrapper parse r0 = .ok (tr, rf))
    (h1 : ModelResponse.text parse rf = .ok (t1, r2))
    (h2 : ModelResponse.text parse r2 = .ok (t2, r3)) :
    t1 = t2 ∧ t1 = rf._text ∧ r2 = rf ∧ r3 = rf := by
  obtain ⟨hstream, hflag⟩ := wrapper_ok_post hs hw
  rw [text_settled hstream hflag] at h1
  injection h1 with h1
  injection h1 with ha hb
  subst hb
  rw [text_settled hstream hflag] at h2
  injection h2 with h2
  injection h2 with hc hd
  subst hd
  exact ⟨ha.symm.trans hc, ha.symm, rfl, rfl⟩

/-- C7 witness: the claim applied to the drained state of `resp2`. -/
theorem claim_C7_witness :
    ModelResponse.text uparse resp2d = .ok (some "lo", resp2d) ∧
    ((some "lo" : Option String) = some "lo" ∧
      (some "lo" : Option String) = resp2d._text ∧
      resp2d = resp2d ∧ resp2d = resp2d) :=
  ⟨rfl, claim_C7 uparse resp2 resp2d resp2d resp2d
    [StreamItem.plain "Hel", StreamItem.plain "lo"] resp2tr
    (some "lo") (some "lo") (by rfl) (by rfl) (by rfl) (by rfl)⟩

/-- C9: producing the diagnostic string representation of a response
that holds an unconsumed stream and no settled text drains the stream as
a side effect of reading the settled text accessor: afterwards the
underlying source is empty, the reported text is the post-drain settled
text, and a subsequent iteration of the incremental view observes an
already-empty source (it yields nothing, without error). -/
theorem claim_C9 (isSer : Option R → Bool) (pyStr : Option R → String)
    (parse : String → Option J) (e : Option E)
    (iu : Option (List String)) (raw : Option R) (p : Option P)
    (tc : Option (List (ToolUseBlock J))) (items : List StreamItem)
    (flds : SerializedFields E R P) (r1 : ModelResponse E R P J)
    (h : ModelResponse.strRepr isSer pyStr parse
        (ModelResponse.init none e iu raw p (some items) tc) =
      .ok (flds, r1)) :
    r1._stream = some [] ∧ flds.text = r1._text ∧
    streamGeneratorWrapper parse r1 = .ok ([], r1) := by
  cases hwc : streamGeneratorWrapper parse
      (ModelResponse.init none e iu raw p (some items) tc) with
  | error er =>
    unfold ModelResponse.strRepr at h
    rw [text_error (by rfl) (by rfl) hwc] at h
    cases h
  | ok pr =>
    obtain ⟨tr, rfx⟩ := pr
    obtain ⟨hstream, hflag⟩ := wrapper_ok_post (by rfl) hwc
    unfold ModelResponse.strRepr at h
    rw [text_of_drain (by rfl) (by rfl) hwc] at h
    injection h with h
    injection h with hf hr
    subst hr
    refine ⟨hstream, ?_, wrapper_nil parse hflag hstream⟩
    rw [← hf]

/-- C9 witness: the claim applied to `resp1` with a raw field reported
serializable. -/
theorem claim_C9_witness :
    ModelResponse.strRepr (fun _ => true) (fun _ => "None") uparse resp1 =
      .ok (flds9, resp1d) ∧
    (resp1d._stream = some [] ∧ flds9.text = resp1d._text ∧
      streamGeneratorWrapper uparse resp1d = .ok ([], resp1d)) :=
  ⟨rfl, claim_C9 (E := Unit) (R := Unit) (P := Unit)
    (fun _ => true) (fun _ => "None") uparse none none none none none
    [StreamItem.plain "a"] flds9 resp1d (by rfl)⟩

end AgentScope
